import Mathlib

/-! # Windows file-watcher back end (`win_fsnotifier.cpp`): embedding and properties

A shallow embedding of `src/file-events/cpp/win_fsnotifier.cpp`.

* A `u16string` is a list of UTF-16 code units (`Nat`); the code only compares
  code units, it never does arithmetic on them.
* The effects of the program are kept as explicit traces in the `Server`
  state: the events handed to the reporting sink (`reportEvent`) and the
  Win32 calls issued (`CreateFileW`, `ReadDirectoryChangesW`, `CancelIo`,
  `CloseHandle`).  What the operating system answers (the handle returned by
  `CreateFileW`, whether `ReadDirectoryChangesW` succeeds) is an argument of
  the operation that asks for it.
* A thrown `FileWatcherException` is the `Except.error` component of the
  result; the state returned with it is the state at the point of the throw.
* Log output (`log_fine`, `log_warning`, ...) has no effect on the state and
  is left out.
-/

namespace WinFsNotifier

/-! ## Paths -/

/-- A UTF-16 code unit (`char16_t`). -/
abbrev Char16 := Nat

/-- A `std::u16string`. -/
abbrev U16String := List Char16

/-- The code unit `u'\\'`. -/
def BACKSLASH : Char16 := 92

/-- The code unit `u':'`. -/
def COLON : Char16 := 58

/-- The literal `u"\\\\?\\"`, that is the four code units `\\?\`. -/
def LONG_PATH_PREFIX : U16String := [92, 92, 63, 92]

/-- The literal `u"\\\\?\\UNC\\"`, that is the eight code units `\\?\UNC\`. -/
def UNC_LONG_PATH_PREFIX : U16String := [92, 92, 63, 92, 85, 78, 67, 92]

/-- The literal `u"\\\\"`, two backslashes. -/
def UNC_PREFIX : U16String := [92, 92]

/-- Element access `path[i]`; every use is guarded by a length test. -/
def at16 (path : U16String) (i : Nat) : Char16 := path.getD i 0

/-- Source: `isAbsoluteLocalPath` (lines 237-244). -/
def isAbsoluteLocalPath (path : U16String) : Bool :=
  if path.length < 3 then false
  else
    ((decide (97 ≤ at16 path 0) && decide (at16 path 0 ≤ 122))
        || (decide (65 ≤ at16 path 0) && decide (at16 path 0 ≤ 90)))
      && at16 path 1 == COLON
      && at16 path 2 == BACKSLASH

/-- Source: `isAbsoluteUncPath` (lines 246-251). -/
def isAbsoluteUncPath (path : U16String) : Bool :=
  if path.length < 3 then false
  else at16 path 0 == BACKSLASH && at16 path 1 == BACKSLASH

/-- Source: `Server::convertToLongPathIfNeeded` (lines 253-272).  The C++
function rewrites its argument in place; here the rewritten path is the
result.  `path.insert(0, s)` is `s ++ path`, `path.erase(0, 2)` is
`path.drop 2`. -/
def convertToLongPathIfNeeded (path : U16String) : U16String :=
  if path.length ≤ 240 then path
  else if isAbsoluteLocalPath path then LONG_PATH_PREFIX ++ path
  else if isAbsoluteUncPath path then UNC_LONG_PATH_PREFIX ++ path.drop 2
  else path

/-- Source: the prefix removal of `WatchPoint::handlePathChanged`
(lines 119-125): `substr(0, n)` is `take n`, `erase(0, n)` is `drop n`. -/
def stripExtendedPrefix (changedPath : U16String) : U16String :=
  if 4 ≤ changedPath.length && changedPath.take 4 == LONG_PATH_PREFIX then
    if 8 ≤ changedPath.length && changedPath.take 8 == UNC_LONG_PATH_PREFIX then
      UNC_PREFIX ++ changedPath.drop 8
    else
      changedPath.drop 4
  else changedPath

/-! ### The classification in the words of the specification -/

/-- An ASCII letter, `a`-`z` or `A`-`Z`. -/
def IsAsciiLetter (c : Char16) : Prop := (97 ≤ c ∧ c ≤ 122) ∨ (65 ≤ c ∧ c ≤ 90)

/-- Local-absolute in the words of the specification: at least three code
units, the first an ASCII letter, then `:` and a backslash. -/
def LocalAbsolute (p : U16String) : Prop :=
  ∃ c rest, p = c :: 58 :: 92 :: rest ∧ IsAsciiLetter c

/-- UNC-absolute in the words of the specification: at least three code units,
the first two of them backslashes. -/
def UncAbsolute (p : U16String) : Prop :=
  ∃ c rest, p = 92 :: 92 :: c :: rest

/-- A path that carries the extended prefix `\\?\` (which `\\?\UNC\` starts
with as well). -/
def HasExtendedPrefix (p : U16String) : Prop :=
  ∃ rest, p = 92 :: 92 :: 63 :: 92 :: rest

/-! ## Data model -/

/-- A Win32 `DWORD`. -/
abbrev DWORD := Nat

/-- A Win32 `HANDLE`, as the number it holds. -/
abbrev HANDLE := Nat

/-- The Win32 constant `INVALID_HANDLE_VALUE`, `(HANDLE) -1` on 64 bits. -/
def INVALID_HANDLE_VALUE : HANDLE := 2 ^ 64 - 1

/-- The Win32 constant `ERROR_OPERATION_ABORTED` (winerror.h). -/
def ERROR_OPERATION_ABORTED : DWORD := 995

/-- The Win32 constant `FILE_ACTION_ADDED` (winnt.h). -/
def FILE_ACTION_ADDED : DWORD := 1

/-- The Win32 constant `FILE_ACTION_REMOVED` (winnt.h). -/
def FILE_ACTION_REMOVED : DWORD := 2

/-- The Win32 constant `FILE_ACTION_MODIFIED` (winnt.h). -/
def FILE_ACTION_MODIFIED : DWORD := 3

/-- The Win32 constant `FILE_ACTION_RENAMED_OLD_NAME` (winnt.h). -/
def FILE_ACTION_RENAMED_OLD_NAME : DWORD := 4

/-- The Win32 constant `FILE_ACTION_RENAMED_NEW_NAME` (winnt.h). -/
def FILE_ACTION_RENAMED_NEW_NAME : DWORD := 5

/-- Modelled from the spec: the `FILE_EVENT_*` constants, whose declaration is
in a header that is not part of the sources at hand.  They are the five event
kinds `Created | Removed | Modified | Unknown | Invalidate` of the
specification, pairwise different. -/
inductive FileEventType where
  | FILE_EVENT_CREATED
  | FILE_EVENT_REMOVED
  | FILE_EVENT_MODIFIED
  | FILE_EVENT_UNKNOWN
  | FILE_EVENT_INVALIDATE
  deriving DecidableEq, Repr

/-- The values `WatchPoint::status` takes in the source (the enumeration
itself is declared in `win_fsnotifier.h`). -/
inductive WatchPointStatus where
  | WATCH_UNINITIALIZED
  | WATCH_LISTENING
  | WATCH_NOT_LISTENING
  | WATCH_FAILED_TO_LISTEN
  deriving DecidableEq, Repr

/-- What `throw FileWatcherException(message)` carries. -/
structure FileWatcherException where
  message : String
  deriving DecidableEq, Repr

/-- One record of the read buffer, a Win32 `FILE_NOTIFY_INFORMATION`.
`FileName` is the memory from the address `info->FileName` on, as code units;
`FileNameLength` counts bytes. -/
structure FILE_NOTIFY_INFORMATION where
  NextEntryOffset : DWORD
  Action : DWORD
  FileNameLength : DWORD
  FileName : List Char16
  deriving DecidableEq, Repr

/-- The fields of a `WatchPoint` that the claims are about.  The read buffer
is filled by the operating system; its content is an argument of the
completion that reads it. -/
structure WatchPoint where
  path : U16String
  directoryHandle : HANDLE
  status : WatchPointStatus
  deriving DecidableEq, Repr

/-- A Win32 call issued by the program. -/
inductive OsCall where
  | CreateFileW (path : U16String)
  | ReadDirectoryChangesW (directoryHandle : HANDLE)
  | CancelIo (directoryHandle : HANDLE)
  | CloseHandle (directoryHandle : HANDLE)
  deriving DecidableEq, Repr

/-- An event handed to the reporting sink by `reportEvent(type, path)`. -/
structure Event where
  type : FileEventType
  path : U16String
  deriving DecidableEq, Repr

/-- The registry `watchPoints`, a map from `u16string` to `WatchPoint`, as an
association list. -/
abbrev Registry := List (U16String × WatchPoint)

/-- The state of a `Server`: the registry and the `terminate` flag of the
source, the events reported to the sink so far and the Win32 calls issued so
far. -/
structure Server where
  watchPoints : Registry
  terminate : Bool
  reported : List Event
  osCalls : List OsCall
  deriving DecidableEq, Repr

/-- The `Server` after construction: nothing watched, nothing reported. -/
def Server.initial : Server :=
  { watchPoints := [], terminate := false, reported := [], osCalls := [] }

/-! ## The registry operations (`std` map semantics) -/

/-- The map operation `watchPoints.find(key)`: the mapped value, or `none`
for `end()`. -/
def Registry.find (m : Registry) (key : U16String) : Option WatchPoint :=
  (List.find? (fun e => e.1 == key) m).map Prod.snd

/-- The map operation `watchPoints.emplace(key, value)`: inserts unless the
key is present. -/
def Registry.emplace (m : Registry) (key : U16String) (w : WatchPoint) : Registry :=
  if (m.find key).isSome then m else m ++ [(key, w)]

/-- The map operation `watchPoints.erase(key)`. -/
def Registry.erase (m : Registry) (key : U16String) : Registry :=
  List.filter (fun e => e.1 != key) m

/-- Writing a mutated `WatchPoint` object back to its place in the map (in the
source the object is mutated in place, through a pointer). -/
def Registry.store (m : Registry) (key : U16String) (w : WatchPoint) : Registry :=
  List.map (fun e => if e.1 == key then (e.1, w) else e) m

/-- The keys of the registry, in order. -/
def Registry.keys (m : Registry) : List U16String := List.map Prod.fst m

/-! ## WatchPoint -/

/-- Source: `Server::reportEvent` (lines 225-228): hands the event to the
sink. -/
def reportEvent (server : Server) (type : FileEventType) (changedPath : U16String) : Server :=
  { server with reported := server.reported ++ [{ type := type, path := changedPath }] }

/-- Source: `Server::reportFinished` (lines 220-223). -/
def reportFinished (server : Server) (watchPoint : WatchPoint) : Server :=
  { server with watchPoints := server.watchPoints.erase watchPoint.path }

/-- Source: `WatchPoint::listen` (lines 63-84).  `success` is what
`ReadDirectoryChangesW` returns; the call is added to `calls`. -/
def WatchPoint.listen (w : WatchPoint) (success : Bool) (calls : List OsCall) :
    WatchPoint × List OsCall :=
  ({ w with status := if success then WatchPointStatus.WATCH_LISTENING
                      else WatchPointStatus.WATCH_FAILED_TO_LISTEN },
   calls ++ [OsCall.ReadDirectoryChangesW w.directoryHandle])

/-- Source: `WatchPoint::close` (lines 39-48): `CancelIo`, then `CloseHandle`,
whatever the first returns. -/
def WatchPoint.close (w : WatchPoint) (calls : List OsCall) : List OsCall :=
  calls ++ [OsCall.CancelIo w.directoryHandle, OsCall.CloseHandle w.directoryHandle]

/-- Source: line 111 of `handlePathChanged`,
`wstring(info->FileName, 0, info->FileNameLength / sizeof(wchar_t))`: the
string read at `FileName` (it ends before the first zero code unit), cut to
`FileNameLength / 2` code units (`sizeof(wchar_t)` is 2 on Windows). -/
def decodedName (info : FILE_NOTIFY_INFORMATION) : U16String :=
  (info.FileName.takeWhile (fun c => c != 0)).take (info.FileNameLength / 2)

/-- Source: lines 129-139 of `handlePathChanged`, the event type of an action
code. -/
def eventTypeOf (action : DWORD) : FileEventType :=
  if action == FILE_ACTION_ADDED || action == FILE_ACTION_RENAMED_NEW_NAME then
    FileEventType.FILE_EVENT_CREATED
  else if action == FILE_ACTION_REMOVED || action == FILE_ACTION_RENAMED_OLD_NAME then
    FileEventType.FILE_EVENT_REMOVED
  else if action == FILE_ACTION_MODIFIED then
    FileEventType.FILE_EVENT_MODIFIED
  else
    FileEventType.FILE_EVENT_UNKNOWN

/-- Source: `WatchPoint::handlePathChanged` (lines 110-142). -/
def handlePathChanged (server : Server) (w : WatchPoint) (info : FILE_NOTIFY_INFORMATION) :
    Server :=
  let changedPath := decodedName info
  let changedPath :=
    if !changedPath.isEmpty then w.path ++ ([BACKSLASH] ++ changedPath) else changedPath
  let changedPath := stripExtendedPrefix changedPath
  reportEvent server (eventTypeOf info.Action) changedPath

/-- Source: the loop of `WatchPoint::handleEvent` (lines 94-101).  The buffer
is given as the records in the order the offsets chain them: the record at
`current` is handled, and the walk goes on to the next one unless its
`NextEntryOffset` is zero. -/
def handleRecords (server : Server) (w : WatchPoint) : List FILE_NOTIFY_INFORMATION → Server
  | [] => server
  | current :: rest =>
    let server := handlePathChanged server w current
    if current.NextEntryOffset == 0 then server else handleRecords server w rest

/-- Source: `WatchPoint::handleEvent` (lines 86-108), for the watch point
registered under `key`.  `buffer` is the content of the read buffer and
`rearm` what `ReadDirectoryChangesW` returns in `listen()`. -/
def handleEvent (server : Server) (key : U16String) (w : WatchPoint) (bytesTransferred : DWORD)
    (buffer : List FILE_NOTIFY_INFORMATION) (rearm : Bool) : Server :=
  let w := { w with status := WatchPointStatus.WATCH_NOT_LISTENING }
  let server :=
    if bytesTransferred == 0 then
      reportEvent server FileEventType.FILE_EVENT_INVALIDATE w.path
    else
      handleRecords server w buffer
  let (w, calls) := w.listen rearm server.osCalls
  let server := { server with watchPoints := server.watchPoints.store key w, osCalls := calls }
  if w.status != WatchPointStatus.WATCH_LISTENING then reportFinished server w else server

/-- Source: `handleEventCallback` (lines 50-61).  The `WatchPoint` that
`overlapped->hEvent` points to is named by the key it is registered under; a
completion for a key that is not registered belongs to no live object and is
not modelled (the state stays as it is). -/
def handleEventCallback (server : Server) (errorCode bytesTransferred : DWORD)
    (key : U16String) (buffer : List FILE_NOTIFY_INFORMATION) (rearm : Bool) : Server :=
  match server.watchPoints.find key with
  | none => server
  | some watchPoint =>
    if errorCode == ERROR_OPERATION_ABORTED then reportFinished server watchPoint
    else handleEvent server key watchPoint bytesTransferred buffer rearm

/-! ## Server -/

/-- Source: the constructor `WatchPoint::WatchPoint` (lines 18-33).  The
constructor queues `listen()` on the server thread and waits for it; here
`listen()` runs in its place.  `Except.error` is the exception of line 31. -/
def WatchPoint.create (path : U16String) (directoryHandle : HANDLE) (listenOk : Bool)
    (calls : List OsCall) : Except FileWatcherException WatchPoint × List OsCall :=
  let w : WatchPoint :=
    { path := path, directoryHandle := directoryHandle,
      status := WatchPointStatus.WATCH_UNINITIALIZED }
  let (w, calls) := w.listen listenOk calls
  if w.status != WatchPointStatus.WATCH_LISTENING then
    (Except.error { message := "Couldn't start listening" }, calls)
  else (Except.ok w, calls)

/-- Source: `Server::startWatching` (lines 181-208).  `directoryHandle` is
what `CreateFileW` returns and `listenOk` what `ReadDirectoryChangesW`
returns in the constructor of the `WatchPoint`.  An exception thrown by the
constructor leaves the map as it was. -/
def startWatching (server : Server) (path : U16String) (directoryHandle : HANDLE)
    (listenOk : Bool) : Except FileWatcherException Unit × Server :=
  let longPath := convertToLongPathIfNeeded path
  if (server.watchPoints.find longPath).isSome then
    (Except.error { message := "Already watching path" }, server)
  else
    let server := { server with osCalls := server.osCalls ++ [OsCall.CreateFileW longPath] }
    if directoryHandle == INVALID_HANDLE_VALUE then
      (Except.ok (), server)
    else
      match WatchPoint.create longPath directoryHandle listenOk server.osCalls with
      | (Except.error e, calls) => (Except.error e, { server with osCalls := calls })
      | (Except.ok w, calls) =>
        (Except.ok (),
         { server with watchPoints := server.watchPoints.emplace longPath w, osCalls := calls })

/-- Source: `Server::stopWatching` (lines 210-218). -/
def stopWatching (server : Server) (path : U16String) :
    Except FileWatcherException Unit × Server :=
  let longPath := convertToLongPathIfNeeded path
  match server.watchPoints.find longPath with
  | none =>
    (Except.error { message := "Cannot stop watching path that was never watched" }, server)
  | some w => (Except.ok (), { server with osCalls := w.close server.osCalls })

/-- Source: `Server::requestTermination` (lines 230-235). -/
def requestTermination (server : Server) : Server :=
  { server with
      terminate := true
      osCalls := server.watchPoints.foldl (fun calls e => e.2.close calls) server.osCalls }

/-- Source: the condition of the loop of `Server::runLoop` (line 176). -/
def runLoopContinues (server : Server) : Bool :=
  !server.terminate || decide (server.watchPoints.length > 0)

/-! ## Runs of the engine -/

/-- What the server thread and its callers do, one step at a time, each with
the answers of the operating system it meets. -/
inductive Command where
  | start (path : U16String) (directoryHandle : HANDLE) (listenOk : Bool)
  | stop (path : U16String)
  | terminate
  | completion (key : U16String) (errorCode bytesTransferred : DWORD)
      (buffer : List FILE_NOTIFY_INFORMATION) (rearm : Bool)
  deriving DecidableEq, Repr

/-- One step of the engine; an exception goes to the caller and the state is
the one at the throw. -/
def step (server : Server) : Command → Server
  | Command.start path directoryHandle listenOk =>
    (startWatching server path directoryHandle listenOk).2
  | Command.stop path => (stopWatching server path).2
  | Command.terminate => requestTermination server
  | Command.completion key errorCode bytesTransferred buffer rearm =>
    handleEventCallback server errorCode bytesTransferred key buffer rearm

/-- A run: the commands handled in order. -/
def run (server : Server) (commands : List Command) : Server :=
  commands.foldl step server

/-! ## Notions used to state the properties -/

/-- The registry is well formed: no key occurs twice, and every `WatchPoint`
is registered under its own `path` (the key and the path are both `longPath`
at the `emplace` of `startWatching`). -/
def RegistryWF (m : Registry) : Prop :=
  m.keys.Nodup ∧ ∀ e ∈ m, e.2.path = e.1

/-- The directory handles of the registered watch points, in order. -/
def Registry.handles (m : Registry) : List HANDLE := List.map (fun e => e.2.directoryHandle) m

/-- How often `CloseHandle` was called on the handle `h`. -/
def closeCount (server : Server) (h : HANDLE) : Nat :=
  server.osCalls.count (OsCall.CloseHandle h)

/-- The path `\\?\C:\aaa...a` of 241 code units. -/
def prefixedPath241 : U16String :=
  [92, 92, 63, 92, 67, 58, 92] ++ List.replicate 234 97

/-- The path `C:\p`. -/
def pathP : U16String := [67, 58, 92, 112]

/-- A watch point for `C:\p`, listening on the handle 7. -/
def watchPointP : WatchPoint :=
  { path := pathP, directoryHandle := 7, status := WatchPointStatus.WATCH_LISTENING }

/-- A server whose registry holds `watchPointP` and nothing else. -/
def serverP : Server :=
  { watchPoints := [(pathP, watchPointP)], terminate := false, reported := [], osCalls := [] }

/-! ## Path classification: the code against the words of the specification -/

theorem isAbsoluteLocalPath_iff (p : U16String) :
    isAbsoluteLocalPath p = true ↔ LocalAbsolute p := by
  rcases p with _ | ⟨a, _ | ⟨b, _ | ⟨c, rest⟩⟩⟩
  · simp [isAbsoluteLocalPath, LocalAbsolute]
  · simp [isAbsoluteLocalPath, LocalAbsolute]
  · simp [isAbsoluteLocalPath, LocalAbsolute]
  · simp only [isAbsoluteLocalPath, LocalAbsolute, IsAsciiLetter, at16, COLON, BACKSLASH]
    constructor
    · intro h
      simp at h
      obtain ⟨⟨h1, h2⟩, h3⟩ := h
      subst h2 h3
      exact ⟨a, rest, rfl, h1⟩
    · rintro ⟨a', rest', heq, hl⟩
      simp at heq
      obtain ⟨rfl, rfl, rfl, rfl⟩ := heq
      simp [hl]

theorem isAbsoluteUncPath_iff (p : U16String) :
    isAbsoluteUncPath p = true ↔ UncAbsolute p := by
  rcases p with _ | ⟨a, _ | ⟨b, _ | ⟨c, rest⟩⟩⟩
  · simp [isAbsoluteUncPath, UncAbsolute]
  · simp [isAbsoluteUncPath, UncAbsolute]
  · simp [isAbsoluteUncPath, UncAbsolute]
  · simp only [isAbsoluteUncPath, UncAbsolute, at16, BACKSLASH]
    constructor
    · intro h
      simp at h
      obtain ⟨h1, h2⟩ := h
      subst h1 h2
      exact ⟨c, rest, rfl⟩
    · rintro ⟨c', rest', heq⟩
      simp at heq
      obtain ⟨rfl, rfl, rfl, rfl⟩ := heq
      simp

/-! ## Long-path rewriting (C1, C2, C3) -/

/-- C1: `convertToLongPathIfNeeded` returns `p` unchanged when `p` has at most
240 code units; otherwise `\\?\` followed by `p` when `p` is local-absolute;
otherwise `\\?\UNC\` followed by `p` without its first two code units when `p`
is UNC-absolute; otherwise `p` unchanged.  In particular a path of exactly 240
code units is unchanged, and a local-absolute or UNC-absolute path of 241 code
units is rewritten. -/
theorem convertToLongPathIfNeeded_cases (p : U16String) :
    (p.length ≤ 240 → convertToLongPathIfNeeded p = p) ∧
    (240 < p.length → LocalAbsolute p →
      convertToLongPathIfNeeded p = [92, 92, 63, 92] ++ p) ∧
    (240 < p.length → ¬ LocalAbsolute p → UncAbsolute p →
      convertToLongPathIfNeeded p = [92, 92, 63, 92, 85, 78, 67, 92] ++ p.drop 2) ∧
    (240 < p.length → ¬ LocalAbsolute p → ¬ UncAbsolute p →
      convertToLongPathIfNeeded p = p) ∧
    (p.length = 240 → convertToLongPathIfNeeded p = p) ∧
    (p.length = 241 → LocalAbsolute p ∨ UncAbsolute p →
      convertToLongPathIfNeeded p ≠ p) := by
  have hshort : p.length ≤ 240 → convertToLongPathIfNeeded p = p := by
    intro h
    simp [convertToLongPathIfNeeded, h]
  have hlocal : 240 < p.length → LocalAbsolute p →
      convertToLongPathIfNeeded p = [92, 92, 63, 92] ++ p := by
    intro h hl
    have h1 : ¬ p.length ≤ 240 := by omega
    have h2 := (isAbsoluteLocalPath_iff p).mpr hl
    simp [convertToLongPathIfNeeded, h1, h2, LONG_PATH_PREFIX]
  have hunc : 240 < p.length → ¬ LocalAbsolute p → UncAbsolute p →
      convertToLongPathIfNeeded p = [92, 92, 63, 92, 85, 78, 67, 92] ++ p.drop 2 := by
    intro h hl hu
    have h1 : ¬ p.length ≤ 240 := by omega
    have h2 : isAbsoluteLocalPath p = false := by
      cases hb : isAbsoluteLocalPath p
      · rfl
      · exact absurd ((isAbsoluteLocalPath_iff p).mp hb) hl
    have h3 := (isAbsoluteUncPath_iff p).mpr hu
    simp [convertToLongPathIfNeeded, h1, h2, h3, UNC_LONG_PATH_PREFIX]
  refine ⟨hshort, hlocal, hunc, ?_, ?_, ?_⟩
  · intro h hl hu
    have h1 : ¬ p.length ≤ 240 := by omega
    have h2 : isAbsoluteLocalPath p = false := by
      cases hb : isAbsoluteLocalPath p
      · rfl
      · exact absurd ((isAbsoluteLocalPath_iff p).mp hb) hl
    have h3 : isAbsoluteUncPath p = false := by
      cases hb : isAbsoluteUncPath p
      · rfl
      · exact absurd ((isAbsoluteUncPath_iff p).mp hb) hu
    simp [convertToLongPathIfNeeded, h1, h2, h3]
  · intro h
    exact hshort (by omega)
  · intro h habs heq
    have hlen := congrArg List.length heq
    by_cases hl : LocalAbsolute p
    · rw [hlocal (by omega) hl] at hlen
      simp at hlen
      omega
    · rcases habs with hl2 | hu
      · exact hl hl2
      · rw [hunc (by omega) hl hu] at hlen
        simp at hlen
        omega

/-- C1 at `C:\aaa...a` of 241 code units, which gains the prefix `\\?\`. -/
theorem convertToLongPathIfNeeded_cases_witness :
    convertToLongPathIfNeeded (67 :: 58 :: 92 :: List.replicate 238 97)
      = [92, 92, 63, 92] ++ (67 :: 58 :: 92 :: List.replicate 238 97) :=
  (convertToLongPathIfNeeded_cases (67 :: 58 :: 92 :: List.replicate 238 97)).2.1
    (by simp only [List.length_cons, List.length_replicate]; omega)
    ⟨67, _, rfl, Or.inr (by decide)⟩

/-- C2, the claim as stated fails: `\\?\C:\a` is UNC-absolute for
`isAbsoluteUncPath` and short, so `convertToLongPathIfNeeded` keeps it, and
the prefix removal then turns it into `C:\a`. -/
theorem strip_convert_counterexample :
    isAbsoluteUncPath [92, 92, 63, 92, 67, 58, 92, 97] = true ∧
    stripExtendedPrefix (convertToLongPathIfNeeded [92, 92, 63, 92, 67, 58, 92, 97])
      = [67, 58, 92, 97] ∧
    stripExtendedPrefix (convertToLongPathIfNeeded [92, 92, 63, 92, 67, 58, 92, 97])
      ≠ [92, 92, 63, 92, 67, 58, 92, 97] := by
  decide

/-- C2, amended: for every local-absolute or UNC-absolute path `p` (as
classified by `isAbsoluteLocalPath` and `isAbsoluteUncPath`) that is longer
than 240 code units or does not itself begin with `\\?\`, removing the
extended prefix from `convertToLongPathIfNeeded p` gives back `p`. -/
theorem strip_convert_roundtrip (p : U16String)
    (habs : isAbsoluteLocalPath p = true ∨ isAbsoluteUncPath p = true)
    (hguard : 240 < p.length ∨ p.take 4 ≠ LONG_PATH_PREFIX) :
    stripExtendedPrefix (convertToLongPathIfNeeded p) = p := by
  by_cases hlen : p.length ≤ 240
  · have hne : p.take 4 ≠ LONG_PATH_PREFIX := by
      rcases hguard with h | h
      · omega
      · exact h
    simp [convertToLongPathIfNeeded, hlen, stripExtendedPrefix, hne]
  · by_cases hl : isAbsoluteLocalPath p = true
    · have hconv : convertToLongPathIfNeeded p = [92, 92, 63, 92] ++ p := by
        simp [convertToLongPathIfNeeded, hlen, hl, LONG_PATH_PREFIX]
      rw [hconv]
      obtain ⟨c, rest, rfl, -⟩ := (isAbsoluteLocalPath_iff p).mp hl
      simp [stripExtendedPrefix, LONG_PATH_PREFIX, UNC_LONG_PATH_PREFIX]
    · have hu : isAbsoluteUncPath p = true := by
        rcases habs with h | h
        · exact absurd h hl
        · exact h
      have hconv : convertToLongPathIfNeeded p
          = [92, 92, 63, 92, 85, 78, 67, 92] ++ p.drop 2 := by
        simp [convertToLongPathIfNeeded, hlen, hl, hu, UNC_LONG_PATH_PREFIX]
      rw [hconv]
      obtain ⟨c, rest, rfl⟩ := (isAbsoluteUncPath_iff p).mp hu
      simp [stripExtendedPrefix, LONG_PATH_PREFIX, UNC_LONG_PATH_PREFIX, UNC_PREFIX]

/-- The amended C2 at the UNC path `\\s\aaa...a` of 241 code units:
`convertToLongPathIfNeeded` rewrites it to `\\?\UNC\s\aaa...a`, and removing
the extended prefix gives the path back. -/
theorem strip_convert_roundtrip_witness :
    convertToLongPathIfNeeded (92 :: 92 :: 115 :: 92 :: List.replicate 237 97)
      = [92, 92, 63, 92, 85, 78, 67, 92] ++ (115 :: 92 :: List.replicate 237 97) ∧
    stripExtendedPrefix
        (convertToLongPathIfNeeded (92 :: 92 :: 115 :: 92 :: List.replicate 237 97))
      = 92 :: 92 :: 115 :: 92 :: List.replicate 237 97 := by
  have hlen : 240 < (92 :: 92 :: 115 :: 92 :: List.replicate 237 97).length := by
    simp only [List.length_cons, List.length_replicate]
    omega
  have hunc : isAbsoluteUncPath (92 :: 92 :: 115 :: 92 :: List.replicate 237 97) = true :=
    (isAbsoluteUncPath_iff _).mpr ⟨115, _, rfl⟩
  have hloc : isAbsoluteLocalPath (92 :: 92 :: 115 :: 92 :: List.replicate 237 97) = false := by
    have hgen : ∀ r : U16String, isAbsoluteLocalPath (92 :: 92 :: 115 :: 92 :: r) = false := by
      intro r
      simp [isAbsoluteLocalPath, at16, COLON]
    exact hgen _
  refine ⟨?_, strip_convert_roundtrip _ (Or.inr hunc) (Or.inl hlen)⟩
  have hnot : ¬ (92 :: 92 :: 115 :: 92 :: List.replicate 237 97).length ≤ 240 := by omega
  rw [convertToLongPathIfNeeded, if_neg hnot, hloc, hunc]
  rfl

theorem stripExtendedPrefix_local (c : Char16) (r : U16String) :
    stripExtendedPrefix (92 :: 92 :: 63 :: 92 :: c :: 58 :: 92 :: r) = c :: 58 :: 92 :: r := by
  simp [stripExtendedPrefix, LONG_PATH_PREFIX, UNC_LONG_PATH_PREFIX]

/-- C3, the claim as stated fails: `\\?\C:\aaa...a` has 241 code units and
carries the prefix; its stripped form has 237 code units, which
`convertToLongPathIfNeeded` leaves alone. -/
theorem convert_strip_counterexample :
    HasExtendedPrefix prefixedPath241 ∧ 240 < prefixedPath241.length ∧
    convertToLongPathIfNeeded (stripExtendedPrefix prefixedPath241) ≠ prefixedPath241 := by
  have hp : prefixedPath241
      = 92 :: 92 :: 63 :: 92 :: 67 :: 58 :: 92 :: List.replicate 234 97 := rfl
  refine ⟨⟨67 :: 58 :: 92 :: List.replicate 234 97, hp⟩, ?_, ?_⟩
  · rw [hp]
    simp only [List.length_cons, List.length_replicate]
    omega
  · rw [hp, stripExtendedPrefix_local]
    have hlen : (67 :: 58 :: 92 :: List.replicate 234 97).length ≤ 240 := by
      simp only [List.length_cons, List.length_replicate]
      omega
    rw [convertToLongPathIfNeeded, if_pos hlen]
    intro h
    injection h with h1 _
    exact absurd h1 (by decide)

/-- C3, amended: for every path `p` that carries the extended prefix, whose
stripped form is longer than 240 code units, and that either starts with
`\\?\UNC\` or has a local-absolute stripped form, re-extending the stripped
form gives back `p`. -/
theorem convert_strip_roundtrip (p : U16String) (hp : HasExtendedPrefix p)
    (hlen : 240 < (stripExtendedPrefix p).length)
    (hshape : (∃ r, p = UNC_LONG_PATH_PREFIX ++ r)
      ∨ isAbsoluteLocalPath (stripExtendedPrefix p) = true) :
    convertToLongPathIfNeeded (stripExtendedPrefix p) = p := by
  obtain ⟨q, rfl⟩ := hp
  by_cases hunc : ∃ r, 92 :: 92 :: 63 :: 92 :: q = UNC_LONG_PATH_PREFIX ++ r
  · obtain ⟨r, hr⟩ := hunc
    simp only [UNC_LONG_PATH_PREFIX, List.cons_append, List.nil_append, List.cons.injEq,
      true_and] at hr
    subst hr
    have hs : stripExtendedPrefix (92 :: 92 :: 63 :: 92 :: 85 :: 78 :: 67 :: 92 :: r)
        = 92 :: 92 :: r := by
      simp [stripExtendedPrefix, LONG_PATH_PREFIX, UNC_LONG_PATH_PREFIX, UNC_PREFIX]
    rw [hs] at hlen ⊢
    have h1 : ¬ (92 :: 92 :: r).length ≤ 240 := by omega
    cases r with
    | nil => simp at hlen
    | cons c rest =>
      simp only [convertToLongPathIfNeeded, h1, if_false]
      simp [isAbsoluteLocalPath, isAbsoluteUncPath, at16, BACKSLASH, COLON,
        UNC_LONG_PATH_PREFIX]
  · have hl : isAbsoluteLocalPath (stripExtendedPrefix (92 :: 92 :: 63 :: 92 :: q)) = true := by
      rcases hshape with h | h
      · exact absurd h hunc
      · exact h
    have hs : stripExtendedPrefix (92 :: 92 :: 63 :: 92 :: q) = q := by
      have hq : ¬ (8 ≤ (92 :: 92 :: 63 :: 92 :: q).length
          ∧ (92 :: 92 :: 63 :: 92 :: q).take 8 = UNC_LONG_PATH_PREFIX) := by
        rintro ⟨h8, ht⟩
        apply hunc
        refine ⟨(92 :: 92 :: 63 :: 92 :: q).drop 8, ?_⟩
        rw [← ht]
        exact (List.take_append_drop 8 _).symm
      simp only [stripExtendedPrefix]
      simp [LONG_PATH_PREFIX] at hq ⊢
      simp [UNC_LONG_PATH_PREFIX, LONG_PATH_PREFIX] at hq ⊢
      intro h8 ht
      exact absurd ht (hq h8)
    rw [hs] at hlen hl ⊢
    have h1 : ¬ q.length ≤ 240 := by omega
    simp [convertToLongPathIfNeeded, h1, hl, LONG_PATH_PREFIX]

/-- The amended C3 at `\\?\C:\aaa...a` of 245 code units, whose stripped form
has 241. -/
theorem convert_strip_roundtrip_witness :
    convertToLongPathIfNeeded
        (stripExtendedPrefix (92 :: 92 :: 63 :: 92 :: 67 :: 58 :: 92 :: List.replicate 238 97))
      = 92 :: 92 :: 63 :: 92 :: 67 :: 58 :: 92 :: List.replicate 238 97 :=
  convert_strip_roundtrip (92 :: 92 :: 63 :: 92 :: 67 :: 58 :: 92 :: List.replicate 238 97)
    ⟨_, rfl⟩
    (by
      rw [stripExtendedPrefix_local]
      simp only [List.length_cons, List.length_replicate]
      omega)
    (Or.inr (by
      rw [stripExtendedPrefix_local]
      exact (isAbsoluteLocalPath_iff _).mpr ⟨67, _, rfl, Or.inr (by decide)⟩))

/-! ## Decoding one change record (C4, C6) -/

/-- C4: for every change record, whatever its action code, `handlePathChanged`
hands exactly one event to the sink (and changes nothing else), and its kind
is Created for `FILE_ACTION_ADDED` and `FILE_ACTION_RENAMED_NEW_NAME`, Removed
for `FILE_ACTION_REMOVED` and `FILE_ACTION_RENAMED_OLD_NAME`, Modified for
`FILE_ACTION_MODIFIED`, and Unknown for every other code. -/
theorem handlePathChanged_reports_one_event (server : Server) (w : WatchPoint)
    (info : FILE_NOTIFY_INFORMATION) :
    ∃ e : Event,
      (handlePathChanged server w info).reported = server.reported ++ [e] ∧
      (handlePathChanged server w info).watchPoints = server.watchPoints ∧
      (handlePathChanged server w info).osCalls = server.osCalls ∧
      (info.Action = FILE_ACTION_ADDED ∨ info.Action = FILE_ACTION_RENAMED_NEW_NAME →
        e.type = FileEventType.FILE_EVENT_CREATED) ∧
      (info.Action = FILE_ACTION_REMOVED ∨ info.Action = FILE_ACTION_RENAMED_OLD_NAME →
        e.type = FileEventType.FILE_EVENT_REMOVED) ∧
      (info.Action = FILE_ACTION_MODIFIED → e.type = FileEventType.FILE_EVENT_MODIFIED) ∧
      (info.Action ≠ FILE_ACTION_ADDED → info.Action ≠ FILE_ACTION_RENAMED_NEW_NAME →
        info.Action ≠ FILE_ACTION_REMOVED → info.Action ≠ FILE_ACTION_RENAMED_OLD_NAME →
        info.Action ≠ FILE_ACTION_MODIFIED → e.type = FileEventType.FILE_EVENT_UNKNOWN) := by
  refine ⟨_, rfl, rfl, rfl, ?_, ?_, ?_, ?_⟩
  · rintro (h | h) <;> simp [eventTypeOf, h, FILE_ACTION_ADDED, FILE_ACTION_RENAMED_NEW_NAME]
  · rintro (h | h) <;>
      simp [eventTypeOf, h, FILE_ACTION_ADDED, FILE_ACTION_RENAMED_NEW_NAME,
        FILE_ACTION_REMOVED, FILE_ACTION_RENAMED_OLD_NAME]
  · intro h
    simp [eventTypeOf, h, FILE_ACTION_ADDED, FILE_ACTION_RENAMED_NEW_NAME,
      FILE_ACTION_REMOVED, FILE_ACTION_RENAMED_OLD_NAME, FILE_ACTION_MODIFIED]
  · intro h1 h2 h3 h4 h5
    simp [eventTypeOf, h1, h2, h3, h4, h5]

/-- C6, the claim as stated fails: for the watch point of `C:\p` and a record
with an empty name, the event handed to the sink carries the empty path, not
`C:\p`. -/
theorem handlePathChanged_empty_name_counterexample :
    decodedName { NextEntryOffset := 0, Action := 3, FileNameLength := 0, FileName := [] } = [] ∧
    (handlePathChanged Server.initial
        { path := [67, 58, 92, 112], directoryHandle := 1,
          status := WatchPointStatus.WATCH_NOT_LISTENING }
        { NextEntryOffset := 0, Action := 3, FileNameLength := 0, FileName := [] }).reported
      = [{ type := FileEventType.FILE_EVENT_MODIFIED, path := [] }] ∧
    (handlePathChanged Server.initial
        { path := [67, 58, 92, 112], directoryHandle := 1,
          status := WatchPointStatus.WATCH_NOT_LISTENING }
        { NextEntryOffset := 0, Action := 3, FileNameLength := 0, FileName := [] }).reported
      ≠ [{ type := FileEventType.FILE_EVENT_MODIFIED, path := [67, 58, 92, 112] }] := by
  decide

/-- C6, amended: for every watch point and every change record whose decoded
relative name is empty, the one event handed to the sink carries the empty
path (the watch root is not put in front of an empty name). -/
theorem handlePathChanged_empty_name (server : Server) (w : WatchPoint)
    (info : FILE_NOTIFY_INFORMATION) (hempty : decodedName info = []) :
    (handlePathChanged server w info).reported
      = server.reported ++ [{ type := eventTypeOf info.Action, path := [] }] := by
  simp [handlePathChanged, hempty, stripExtendedPrefix, reportEvent]

/-- The amended C6 at a record whose `FileNameLength` is one byte, for the
watch point of `C:\p`. -/
theorem handlePathChanged_empty_name_witness :
    (handlePathChanged Server.initial
        { path := [67, 58, 92, 112], directoryHandle := 1,
          status := WatchPointStatus.WATCH_NOT_LISTENING }
        { NextEntryOffset := 0, Action := 1, FileNameLength := 1, FileName := [97] }).reported
      = Server.initial.reported ++ [{ type := eventTypeOf 1, path := [] }] :=
  handlePathChanged_empty_name Server.initial _
    { NextEntryOffset := 0, Action := 1, FileNameLength := 1, FileName := [97] } (by decide)

/-! ## Facts about the registry operations -/

theorem Registry.find_nil (key : U16String) : Registry.find [] key = none := rfl

theorem Registry.find_cons (e : U16String × WatchPoint) (m : Registry) (key : U16String) :
    Registry.find (e :: m) key = if e.1 == key then some e.2 else Registry.find m key := by
  by_cases h : e.1 == key <;> simp [Registry.find, List.find?_cons, h]

theorem Registry.find_some_mem {m : Registry} {key : U16String} {w : WatchPoint}
    (h : m.find key = some w) : (key, w) ∈ m := by
  induction m with
  | nil => simp [Registry.find_nil] at h
  | cons e m ih =>
    rw [Registry.find_cons] at h
    by_cases hk : e.1 == key
    · simp only [hk, if_true, Option.some.injEq] at h
      have hk2 : e.1 = key := by simpa using hk
      have he : e = (key, w) := Prod.ext hk2 h
      simp [he]
    · simp only [hk] at h
      exact List.mem_cons_of_mem _ (ih h)

theorem Registry.find_isSome_iff {m : Registry} {key : U16String} :
    (m.find key).isSome = true ↔ key ∈ m.keys := by
  induction m with
  | nil => simp [Registry.find_nil, Registry.keys]
  | cons e m ih =>
    rw [Registry.find_cons]
    by_cases hk : e.1 == key
    · have hk2 : e.1 = key := by simpa using hk
      simp [hk, Registry.keys, hk2]
    · have hk2 : ¬ key = e.1 := by
        intro h
        exact hk (by simp [h])
      simp only [hk, Registry.keys, List.map_cons, List.mem_cons, hk2, false_or]
      exact ih

theorem Registry.find_eq_none_iff {m : Registry} {key : U16String} :
    m.find key = none ↔ key ∉ m.keys := by
  rw [← Registry.find_isSome_iff]
  cases m.find key <;> simp

theorem Registry.keys_store (m : Registry) (key : U16String) (w : WatchPoint) :
    (m.store key w).keys = m.keys := by
  induction m with
  | nil => rfl
  | cons e m ih =>
    simp only [Registry.store, Registry.keys, List.map_cons] at ih ⊢
    rw [ih]
    by_cases hk : e.1 == key <;> simp [hk]

theorem Registry.find_store_self {m : Registry} {key : U16String} {w : WatchPoint}
    (w2 : WatchPoint) (h : m.find key = some w) : (m.store key w2).find key = some w2 := by
  induction m with
  | nil => simp [Registry.find_nil] at h
  | cons e m ih =>
    rw [Registry.find_cons] at h
    by_cases hk : e.1 = key
    · simp [Registry.store, Registry.find_cons, hk]
    · simp only [hk, beq_iff_eq, if_false] at h
      have := ih h
      simp only [Registry.store, beq_iff_eq] at this
      simp [Registry.store, Registry.find_cons, hk, this]

theorem Registry.mem_erase_iff {m : Registry} {key : U16String} {e : U16String × WatchPoint} :
    e ∈ m.erase key ↔ e ∈ m ∧ e.1 ≠ key := by
  simp [Registry.erase, List.mem_filter]

theorem Registry.keys_erase_sublist (m : Registry) (key : U16String) :
    (m.erase key).keys.Sublist m.keys :=
  List.Sublist.map _ (List.filter_sublist m)

/-- C5: for a registered watch point, a completion with `bytesTransferred = 0`
and an error code other than the cancellation code hands exactly one event to
the sink, of kind Invalidate with the path of the watch point; the content of
the buffer plays no part; the read is armed again (one
`ReadDirectoryChangesW` on the handle), and when that succeeds the watch point
has status Listening and the registry has the same keys as before. -/
theorem handleEventCallback_overflow (server : Server) (key : U16String) (w : WatchPoint)
    (errorCode : DWORD) (buffer : List FILE_NOTIFY_INFORMATION) (rearm : Bool)
    (hreg : server.watchPoints.find key = some w)
    (herr : errorCode ≠ ERROR_OPERATION_ABORTED) :
    (handleEventCallback server errorCode 0 key buffer rearm).reported
      = server.reported ++ [{ type := FileEventType.FILE_EVENT_INVALIDATE, path := w.path }] ∧
    handleEventCallback server errorCode 0 key buffer rearm
      = handleEventCallback server errorCode 0 key [] rearm ∧
    (handleEventCallback server errorCode 0 key buffer rearm).osCalls
      = server.osCalls ++ [OsCall.ReadDirectoryChangesW w.directoryHandle] ∧
    (rearm = true →
      (handleEventCallback server errorCode 0 key buffer rearm).watchPoints.find key
        = some { w with status := WatchPointStatus.WATCH_LISTENING } ∧
      (handleEventCallback server errorCode 0 key buffer rearm).watchPoints.keys
        = server.watchPoints.keys) := by
  have herr2 : (errorCode == ERROR_OPERATION_ABORTED) = false := by simpa using herr
  refine ⟨?_, ?_, ?_, ?_⟩
  · cases rearm <;>
      simp [handleEventCallback, hreg, herr2, handleEvent, reportEvent, reportFinished,
        WatchPoint.listen]
  · simp [handleEventCallback, hreg, herr2, handleEvent]
  · cases rearm <;>
      simp [handleEventCallback, hreg, herr2, handleEvent, reportEvent, reportFinished,
        WatchPoint.listen]
  · intro hre
    subst hre
    simp only [handleEventCallback, hreg, herr2, handleEvent, reportEvent, WatchPoint.listen]
    simp only [beq_self_eq_true, if_true, bne_self_eq_false, Bool.false_eq_true, if_false]
    exact ⟨Registry.find_store_self _ hreg, Registry.keys_store _ _ _⟩

/-- The overflow completion of C5 for the watch point of `C:\p`. -/
theorem handleEventCallback_overflow_witness :
    (handleEventCallback serverP 0 0 pathP [] true).reported
      = serverP.reported
        ++ [{ type := FileEventType.FILE_EVENT_INVALIDATE, path := watchPointP.path }] :=
  (handleEventCallback_overflow serverP pathP watchPointP 0 [] true
    (by decide) (by decide)).1

theorem RegistryWF_nil : RegistryWF [] := by
  simp [RegistryWF, Registry.keys]

theorem RegistryWF_erase {m : Registry} (key : U16String) (h : RegistryWF m) :
    RegistryWF (m.erase key) :=
  ⟨h.1.sublist (Registry.keys_erase_sublist m key),
   fun e he => h.2 e (Registry.mem_erase_iff.mp he).1⟩

theorem RegistryWF_store {m : Registry} {key : U16String} {w : WatchPoint}
    (h : RegistryWF m) (hpath : w.path = key) : RegistryWF (m.store key w) := by
  refine ⟨by rw [Registry.keys_store]; exact h.1, ?_⟩
  intro e he
  simp only [Registry.store, List.mem_map] at he
  obtain ⟨e0, he0, rfl⟩ := he
  by_cases hk : e0.1 = key
  · simp [hk, hpath]
  · simp [hk, h.2 e0 he0]

theorem RegistryWF_emplace {m : Registry} (key : U16String) (w : WatchPoint)
    (h : RegistryWF m) (hpath : w.path = key) : RegistryWF (m.emplace key w) := by
  unfold Registry.emplace
  cases hfind : m.find key with
  | some w0 => simpa using h
  | none =>
    have hnot : key ∉ m.keys := Registry.find_eq_none_iff.mp hfind
    simp only [Option.isSome_none, Bool.false_eq_true, if_false]
    refine ⟨?_, ?_⟩
    · simp only [Registry.keys, List.map_append, List.map_cons, List.map_nil]
      refine List.Nodup.append h.1 (List.nodup_singleton _) ?_
      intro k hk hk2
      rw [List.mem_singleton] at hk2
      exact hnot (hk2 ▸ hk)
    · intro e he
      rcases List.mem_append.mp he with he | he
      · exact h.2 e he
      · rw [List.mem_singleton] at he
        subst he
        exact hpath

theorem handleRecords_effect (server : Server) (w : WatchPoint)
    (buffer : List FILE_NOTIFY_INFORMATION) :
    (handleRecords server w buffer).watchPoints = server.watchPoints ∧
    (handleRecords server w buffer).osCalls = server.osCalls ∧
    (handleRecords server w buffer).terminate = server.terminate := by
  induction buffer generalizing server with
  | nil => exact ⟨rfl, rfl, rfl⟩
  | cons current rest ih =>
    simp only [handleRecords]
    by_cases hz : current.NextEntryOffset == 0
    · simp [hz, handlePathChanged, reportEvent]
    · simp only [hz]
      have := ih (handlePathChanged server w current)
      simpa [handlePathChanged, reportEvent] using this

theorem WatchPoint.create_ok {path : U16String} {directoryHandle : HANDLE} {listenOk : Bool}
    {calls calls2 : List OsCall} {w : WatchPoint}
    (h : WatchPoint.create path directoryHandle listenOk calls = (Except.ok w, calls2)) :
    w = { path := path, directoryHandle := directoryHandle,
          status := WatchPointStatus.WATCH_LISTENING } ∧
    calls2 = calls ++ [OsCall.ReadDirectoryChangesW directoryHandle] := by
  cases listenOk <;> simp [WatchPoint.create, WatchPoint.listen] at h
  exact ⟨h.1.symm, h.2.symm⟩

theorem startWatching_watchPoints (server : Server) (path : U16String)
    (directoryHandle : HANDLE) (listenOk : Bool) :
    (startWatching server path directoryHandle listenOk).2.watchPoints = server.watchPoints ∨
    (server.watchPoints.find (convertToLongPathIfNeeded path) = none ∧
      directoryHandle ≠ INVALID_HANDLE_VALUE ∧
      (startWatching server path directoryHandle listenOk).2.watchPoints
        = server.watchPoints ++ [(convertToLongPathIfNeeded path,
            { path := convertToLongPathIfNeeded path, directoryHandle := directoryHandle,
              status := WatchPointStatus.WATCH_LISTENING })]) := by
  cases hfind : server.watchPoints.find (convertToLongPathIfNeeded path) with
  | some w0 => left; simp [startWatching, hfind]
  | none =>
    by_cases hinv : directoryHandle = INVALID_HANDLE_VALUE
    · left; simp [startWatching, hfind, hinv]
    · cases hc : WatchPoint.create (convertToLongPathIfNeeded path) directoryHandle listenOk
          (server.osCalls ++ [OsCall.CreateFileW (convertToLongPathIfNeeded path)]) with
      | mk r calls =>
        cases r with
        | error e => left; simp [startWatching, hfind, hinv, hc]
        | ok w =>
          right
          obtain ⟨hw, -⟩ := WatchPoint.create_ok hc
          subst hw
          simp [startWatching, hfind, hinv, hc, Registry.emplace]

theorem handleEventCallback_watchPoints (server : Server) (errorCode bytesTransferred : DWORD)
    (key : U16String) (buffer : List FILE_NOTIFY_INFORMATION) (rearm : Bool) :
    (handleEventCallback server errorCode bytesTransferred key buffer rearm).watchPoints
        = server.watchPoints ∨
    ∃ w, server.watchPoints.find key = some w ∧
      ((handleEventCallback server errorCode bytesTransferred key buffer rearm).watchPoints
          = server.watchPoints.erase w.path ∨
       (handleEventCallback server errorCode bytesTransferred key buffer rearm).watchPoints
          = server.watchPoints.store key { w with status := WatchPointStatus.WATCH_LISTENING } ∨
       (handleEventCallback server errorCode bytesTransferred key buffer rearm).watchPoints
          = (server.watchPoints.store key
              { w with status := WatchPointStatus.WATCH_FAILED_TO_LISTEN }).erase w.path) := by
  unfold handleEventCallback
  cases hfind : server.watchPoints.find key with
  | none => left; rfl
  | some w =>
    right
    refine ⟨w, rfl, ?_⟩
    by_cases herr : errorCode = ERROR_OPERATION_ABORTED
    · left; simp [herr, reportFinished]
    · right
      have hwp : (if bytesTransferred = 0 then
            reportEvent server FileEventType.FILE_EVENT_INVALIDATE w.path
          else handleRecords server { w with status := WatchPointStatus.WATCH_NOT_LISTENING }
            buffer).watchPoints = server.watchPoints := by
        by_cases hb : bytesTransferred = 0
        · simp [hb, reportEvent]
        · simp only [hb, if_false]
          exact (handleRecords_effect _ _ _).1
      cases rearm
      · right
        simp only [herr, handleEvent, WatchPoint.listen, reportFinished, beq_iff_eq, if_false]
        simp [hwp]
      · left
        simp only [herr, handleEvent, WatchPoint.listen, reportFinished, beq_iff_eq, if_false]
        simp [hwp]

theorem step_preserves_RegistryWF (server : Server) (c : Command)
    (h : RegistryWF server.watchPoints) : RegistryWF (step server c).watchPoints := by
  cases c with
  | start path directoryHandle listenOk =>
    rcases startWatching_watchPoints server path directoryHandle listenOk with h1 | ⟨hf, -, h1⟩
    · simp only [step]; rw [h1]; exact h
    · simp only [step]
      rw [h1]
      have := RegistryWF_emplace (convertToLongPathIfNeeded path)
        { path := convertToLongPathIfNeeded path, directoryHandle := directoryHandle,
          status := WatchPointStatus.WATCH_LISTENING } h rfl
      simpa [Registry.emplace, hf] using this
  | stop path =>
    simp only [step, stopWatching]
    cases server.watchPoints.find (convertToLongPathIfNeeded path) <;> exact h
  | terminate => exact h
  | completion key errorCode bytesTransferred buffer rearm =>
    simp only [step]
    rcases handleEventCallback_watchPoints server errorCode bytesTransferred key buffer rearm
      with h1 | ⟨w, hw, h1 | h1 | h1⟩
    · rw [h1]; exact h
    · rw [h1]; exact RegistryWF_erase _ h
    · rw [h1]
      exact RegistryWF_store h (h.2 _ (Registry.find_some_mem hw))
    · rw [h1]
      exact RegistryWF_erase _ (RegistryWF_store h (h.2 _ (Registry.find_some_mem hw)))

theorem run_preserves_RegistryWF (commands : List Command) (server : Server)
    (h : RegistryWF server.watchPoints) : RegistryWF (run server commands).watchPoints := by
  induction commands generalizing server with
  | nil => exact h
  | cons c cs ih => exact ih (step server c) (step_preserves_RegistryWF server c h)

/-! ## Starting a watch (C7, C8) -/

/-- C7: when the normalized form of `path` is already a key of the registry,
`startWatching` throws "Already watching path" and leaves the whole state as
it was (no Win32 call is issued, so no handle is opened, and no entry is
added or replaced); and after any sequence of commands and completions, from
the state of a new server, no key occurs twice in the registry. -/
theorem startWatching_already_watching (server : Server) (path : U16String)
    (directoryHandle : HANDLE) (listenOk : Bool)
    (hreg : (server.watchPoints.find (convertToLongPathIfNeeded path)).isSome = true) :
    startWatching server path directoryHandle listenOk
      = (Except.error { message := "Already watching path" }, server) ∧
    ∀ commands : List Command, (run Server.initial commands).watchPoints.keys.Nodup := by
  refine ⟨by simp [startWatching, hreg], fun commands => ?_⟩
  exact (run_preserves_RegistryWF commands Server.initial RegistryWF_nil).1

/-- C7 at a second start of `C:\p`. -/
theorem startWatching_already_watching_witness :
    startWatching serverP pathP 9 true
      = (Except.error { message := "Already watching path" }, serverP) :=
  (startWatching_already_watching serverP pathP 9 true (by decide)).1

/-- C8, what the code does when `CreateFileW` fails: for a path that is not
registered, `startWatching` returns normally, without an exception, and
nothing is registered. -/
theorem startWatching_open_failure (server : Server) (path : U16String) (listenOk : Bool)
    (hreg : server.watchPoints.find (convertToLongPathIfNeeded path) = none) :
    startWatching server path INVALID_HANDLE_VALUE listenOk
      = (Except.ok (),
         { server with
           osCalls := server.osCalls ++ [OsCall.CreateFileW (convertToLongPathIfNeeded path)] }) := by
  simp [startWatching, hreg]

/-- C8 at `C:\p` on a new server: the call returns normally and the registry
is still empty. -/
theorem startWatching_open_failure_witness :
    (startWatching Server.initial pathP INVALID_HANDLE_VALUE true).1 = Except.ok () ∧
    (startWatching Server.initial pathP INVALID_HANDLE_VALUE true).2.watchPoints = [] := by
  have h := startWatching_open_failure Server.initial pathP true (by decide)
  rw [h]
  exact ⟨rfl, rfl⟩

/-- What the code does on the other setup failure, and on success: when the
initial read cannot be armed, `startWatching` throws and the registry is as
before; with a valid handle and an armed read it returns normally and the
watch point is registered with status Listening. -/
theorem startWatching_valid_handle (server : Server) (path : U16String)
    (directoryHandle : HANDLE)
    (hreg : server.watchPoints.find (convertToLongPathIfNeeded path) = none)
    (hvalid : directoryHandle ≠ INVALID_HANDLE_VALUE) :
    (startWatching server path directoryHandle false).1
        = Except.error { message := "Couldn't start listening" } ∧
    (startWatching server path directoryHandle false).2.watchPoints = server.watchPoints ∧
    (startWatching server path directoryHandle true).1 = Except.ok () ∧
    (startWatching server path directoryHandle true).2.watchPoints.find
        (convertToLongPathIfNeeded path)
      = some { path := convertToLongPathIfNeeded path, directoryHandle := directoryHandle,
               status := WatchPointStatus.WATCH_LISTENING } := by
  refine ⟨?_, ?_, ?_, ?_⟩
  · simp [startWatching, hreg, hvalid, WatchPoint.create, WatchPoint.listen]
  · simp [startWatching, hreg, hvalid, WatchPoint.create, WatchPoint.listen]
  · simp [startWatching, hreg, hvalid, WatchPoint.create, WatchPoint.listen]
  · simp only [startWatching, hreg, hvalid, WatchPoint.create, WatchPoint.listen,
      Registry.emplace, Option.isSome_none, Bool.false_eq_true, if_false, beq_iff_eq, if_true,
      bne_self_eq_false]
    have hnot := hreg
    simp only [Registry.find] at hnot ⊢
    rw [List.find?_append]
    cases hf : List.find? (fun e => e.1 == convertToLongPathIfNeeded path) server.watchPoints with
    | none => simp
    | some e => simp [hf] at hnot

/-! ## Closing watch points (C9) -/

theorem startWatching_closeCount (server : Server) (path : U16String)
    (directoryHandle : HANDLE) (listenOk : Bool) (h : HANDLE) :
    closeCount (startWatching server path directoryHandle listenOk).2 h = closeCount server h := by
  cases hfind : server.watchPoints.find (convertToLongPathIfNeeded path) with
  | some w0 => simp [startWatching, hfind]
  | none =>
    by_cases hinv : directoryHandle = INVALID_HANDLE_VALUE
    · simp [startWatching, hfind, hinv, closeCount, List.count_append]
    · cases listenOk <;>
        simp [startWatching, hfind, hinv, closeCount, List.count_append, WatchPoint.create,
          WatchPoint.listen]

theorem handleEventCallback_closeCount (server : Server) (errorCode bytesTransferred : DWORD)
    (key : U16String) (buffer : List FILE_NOTIFY_INFORMATION) (rearm : Bool) (h : HANDLE) :
    closeCount (handleEventCallback server errorCode bytesTransferred key buffer rearm) h
      = closeCount server h := by
  unfold handleEventCallback
  cases hfind : server.watchPoints.find key with
  | none => rfl
  | some w =>
    by_cases herr : errorCode = ERROR_OPERATION_ABORTED
    · simp [herr, reportFinished, closeCount]
    · have hcalls : (if bytesTransferred = 0 then
            reportEvent server FileEventType.FILE_EVENT_INVALIDATE w.path
          else handleRecords server { w with status := WatchPointStatus.WATCH_NOT_LISTENING }
            buffer).osCalls = server.osCalls := by
        by_cases hb : bytesTransferred = 0
        · simp [hb, reportEvent]
        · simp only [hb, if_false]
          exact (handleRecords_effect _ _ _).2.1
      cases rearm <;>
      · simp only [herr, handleEvent, WatchPoint.listen, reportFinished, beq_iff_eq, if_false]
        simp [hcalls, closeCount, List.count_append]

/-- Every `stopWatching` on a registered path calls `CloseHandle` on the
handle of the entry once more, whatever was closed before, and leaves the
entry registered. -/
theorem stopWatching_closeCount (server : Server) (path : U16String) (w : WatchPoint)
    (hreg : server.watchPoints.find (convertToLongPathIfNeeded path) = some w) :
    closeCount (stopWatching server path).2 w.directoryHandle
      = closeCount server w.directoryHandle + 1 ∧
    (stopWatching server path).2.watchPoints.find (convertToLongPathIfNeeded path) = some w := by
  simp [stopWatching, hreg, closeCount, WatchPoint.close, List.count_append]

/-- Every `requestTermination` calls `CloseHandle` once more on the handle of
each registered entry, whatever was closed before. -/
theorem requestTermination_closeCount (server : Server) (h : HANDLE) :
    closeCount (requestTermination server) h
      = closeCount server h + List.count h server.watchPoints.handles := by
  have key : ∀ (m : Registry) (calls : List OsCall),
      List.count (OsCall.CloseHandle h) (List.foldl (fun calls e => e.2.close calls) calls m)
        = List.count (OsCall.CloseHandle h) calls + List.count h (Registry.handles m) := by
    intro m
    induction m with
    | nil => intro calls; simp [Registry.handles]
    | cons e m ih =>
      intro calls
      rw [List.foldl_cons, ih]
      simp only [WatchPoint.close, Registry.handles, List.map_cons, List.count_append,
        List.count_cons, List.count_nil, beq_iff_eq]
      by_cases he : e.2.directoryHandle = h
      · simp [he]; omega
      · simp [he]
  simp only [closeCount, requestTermination]
  exact key _ _

/-- C9, what the code does against the claim: one watch point is created for
`C:\p` (a single `CreateFileW`, answered with the handle 7, and a single entry
in the registry).  A second `stopWatching`, or a terminate, handled before the
cancellation completion has removed the entry finds the entry still registered
and issues close on it again: `CancelIo` and `CloseHandle` are each called
twice on the handle of that one watch point, where the claim says at most
once. -/
theorem close_twice_before_removal :
    (run Server.initial [Command.start pathP 7 true, Command.stop pathP]).watchPoints
      = [(pathP, watchPointP)] ∧
    (run Server.initial
      [Command.start pathP 7 true, Command.stop pathP, Command.stop pathP]).osCalls
      = [OsCall.CreateFileW pathP, OsCall.ReadDirectoryChangesW 7,
         OsCall.CancelIo 7, OsCall.CloseHandle 7, OsCall.CancelIo 7, OsCall.CloseHandle 7] ∧
    closeCount (run Server.initial
      [Command.start pathP 7 true, Command.stop pathP, Command.stop pathP]) 7 = 2 ∧
    (run Server.initial
      [Command.start pathP 7 true, Command.stop pathP, Command.terminate]).osCalls
      = [OsCall.CreateFileW pathP, OsCall.ReadDirectoryChangesW 7,
         OsCall.CancelIo 7, OsCall.CloseHandle 7, OsCall.CancelIo 7, OsCall.CloseHandle 7] ∧
    closeCount (run Server.initial
      [Command.start pathP 7 true, Command.stop pathP, Command.terminate]) 7 = 2 := by
  decide

/-- The handle of a watch point whose initial read cannot be armed is never
closed: `startWatching` throws, nothing is registered, and no later command
can reach the handle. -/
theorem startWatching_listen_failure_no_close :
    (startWatching Server.initial pathP 7 false).1
      = Except.error { message := "Couldn't start listening" } ∧
    (startWatching Server.initial pathP 7 false).2.watchPoints = [] ∧
    (startWatching Server.initial pathP 7 false).2.osCalls
      = [OsCall.CreateFileW pathP, OsCall.ReadDirectoryChangesW 7] :=
  ⟨rfl, rfl, rfl⟩

end WinFsNotifier
